import Mathlib

/-!
Verification of the Xenomai real-time core: shallow embedding of
`kernel/cobalt/posix/sched.c` (policy resolution, temporal-partition
schedules, quota groups) and `lib/alchemy/queue.c` (message queues),
with theorems settling the specification claims.

Machine integers are modelled as `Nat`/`Int`; C error returns are the
usual negated errno values (`-EINVAL = -22`, `-ENOMEM = -12`,
`-EPERM = -1`, `-EWOULDBLOCK = -11`, `-ESRCH = -3`, `-EBUSY = -16`).
The kernel configuration modelled is the one the specification
describes: CONFIG_XENO_OPT_SCHED_WEAK, _SPORADIC, _TP and _QUOTA all
enabled.
-/

namespace Xenomai

/-! ## Scheduling policies (kernel/cobalt/posix/sched.c) -/

/-- Policy identifiers, as in the cobalt uapi headers (values are
immaterial to the theorems; they only need to be distinct). -/
def SCHED_NORMAL : Int := 0
def SCHED_FIFO : Int := 1
def SCHED_RR : Int := 2
def SCHED_SPORADIC : Int := 10
def SCHED_TP : Int := 11
def SCHED_QUOTA : Int := 12
def SCHED_COBALT : Int := 42
def SCHED_WEAK : Int := 43

/-- Modelled from the spec: the per-class priority window bounds
(the XNSCHED priority-bound macros live in kernel headers that are not
under src/). Each class has a [min,max] priority window; the exact
numeric values are irrelevant to every theorem below except as concrete
witnesses. -/
def XNSCHED_FIFO_PRIO_MIN : Int := 1
def XNSCHED_FIFO_PRIO_MAX : Int := 99
def XNSCHED_CORE_PRIO_MIN : Int := 0
def XNSCHED_CORE_PRIO_MAX : Int := 257
def XNSCHED_WEAK_PRIO_MIN : Int := 0
def XNSCHED_WEAK_PRIO_MAX : Int := 99

/-- Modelled from the spec: CONFIG_XENO_OPT_SCHED_TP_NRPART, the number
of temporal partitions (kernel configuration, not under src/). -/
def TP_NRPART : Int := 4

/-- `struct sched_param_ex`: the extended scheduling parameters a caller
hands to the policy resolver. Time values are in nanoseconds after
`ts2ns`, with 0 standing for XN_INFINITE. -/
structure SchedParamEx where
  sched_priority : Int
  sched_rr_quantum : Nat
  sched_ss_low_priority : Int
  sched_ss_init_budget : Nat
  sched_ss_repl_period : Nat
  sched_ss_max_repl : Int
  sched_tp_partition : Int
  sched_quota_group : Int
  deriving DecidableEq, Repr

/-- The scheduling class selected by the resolver (`xnsched_class_*`). -/
inductive SchedClass where
  | rt
  | weak
  | sporadic
  | tp
  | quota
  deriving DecidableEq, Repr

/-- `union xnsched_policy_param`, modelled as a tagged value: the branch
the resolver last wrote before returning. -/
inductive PolicyParam where
  | rt (prio : Int)
  | weak (prio : Int)
  | pss (normal_prio low_prio current_prio : Int)
        (init_budget repl_period : Nat) (max_repl : Int)
  | tp (prio : Int) (ptid : Int)
  | quota (prio : Int) (tgid : Int)
  deriving DecidableEq, Repr

/-- `cobalt_sched_policy_param` from kernel/cobalt/posix/sched.c:
maps a user policy + parameters to a scheduling class and internal
parameter block, or `none` (NULL) on rejection. `tslice_r` models the
optional round-robin time-slice in/out pointer; the result carries the
value written back through it. A negative priority is reinterpreted as
SCHED_WEAK at its absolute value. -/
def cobalt_sched_policy_param (u_policy : Int) (pex : SchedParamEx)
    (tslice_r : Option Nat) :
    Option (SchedClass × PolicyParam × Option Nat) :=
  let prio0 := pex.sched_priority
  let prio := if prio0 < 0 then -prio0 else prio0
  let policy := if prio0 < 0 then SCHED_WEAK else u_policy
  if policy = SCHED_NORMAL then
    -- case SCHED_NORMAL: if (prio) return NULL; then falls through
    -- to the SCHED_WEAK range check (WEAK class compiled in).
    if prio ≠ 0 then none
    else if prio < XNSCHED_WEAK_PRIO_MIN ∨ prio > XNSCHED_WEAK_PRIO_MAX then none
    else some (.weak, .weak prio, tslice_r.map (fun _ => 0))
  else if policy = SCHED_WEAK then
    if prio < XNSCHED_WEAK_PRIO_MIN ∨ prio > XNSCHED_WEAK_PRIO_MAX then none
    else some (.weak, .weak prio, tslice_r.map (fun _ => 0))
  else if policy = SCHED_RR then
    -- tslice := ts2ns(quantum); if XN_INFINITE, use the caller's
    -- previously configured slice; then the SCHED_FIFO checks apply.
    let tslice := if pex.sched_rr_quantum = 0 then
                    match tslice_r with
                    | some t => t
                    | none => 0
                  else pex.sched_rr_quantum
    if prio < XNSCHED_FIFO_PRIO_MIN ∨ prio > XNSCHED_FIFO_PRIO_MAX then none
    else some (.rt, .rt prio, tslice_r.map (fun _ => tslice))
  else if policy = SCHED_FIFO then
    if prio < XNSCHED_FIFO_PRIO_MIN ∨ prio > XNSCHED_FIFO_PRIO_MAX then none
    else some (.rt, .rt prio, tslice_r.map (fun _ => 0))
  else if policy = SCHED_COBALT then
    if prio < XNSCHED_CORE_PRIO_MIN ∨ prio > XNSCHED_CORE_PRIO_MAX then none
    else some (.rt, .rt prio, tslice_r.map (fun _ => 0))
  else if policy = SCHED_SPORADIC then
    -- five budget fields copied verbatim; no priority-range check here.
    some (.sporadic,
          .pss pex.sched_priority pex.sched_ss_low_priority pex.sched_priority
               pex.sched_ss_init_budget pex.sched_ss_repl_period
               pex.sched_ss_max_repl,
          tslice_r.map (fun _ => 0))
  else if policy = SCHED_TP then
    -- no priority-range check here.
    some (.tp, .tp pex.sched_priority pex.sched_tp_partition,
          tslice_r.map (fun _ => 0))
  else if policy = SCHED_QUOTA then
    -- no priority-range check here.
    some (.quota, .quota pex.sched_priority pex.sched_quota_group,
          tslice_r.map (fun _ => 0))
  else
    none

/-- `COBALT_SYSCALL(sched_minprio)`: lowest valid priority per policy. -/
def sched_minprio (policy : Int) : Int :=
  if policy = SCHED_FIFO ∨ policy = SCHED_RR ∨ policy = SCHED_SPORADIC ∨
     policy = SCHED_TP ∨ policy = SCHED_QUOTA then XNSCHED_FIFO_PRIO_MIN
  else if policy = SCHED_COBALT then XNSCHED_CORE_PRIO_MIN
  else if policy = SCHED_NORMAL ∨ policy = SCHED_WEAK then 0
  else -22

/-- `COBALT_SYSCALL(sched_maxprio)`: highest valid priority per policy
(WEAK class compiled in, so SCHED_WEAK reports XNSCHED_FIFO_PRIO_MAX). -/
def sched_maxprio (policy : Int) : Int :=
  if policy = SCHED_FIFO ∨ policy = SCHED_RR ∨ policy = SCHED_SPORADIC ∨
     policy = SCHED_TP ∨ policy = SCHED_QUOTA then XNSCHED_FIFO_PRIO_MAX
  else if policy = SCHED_COBALT then XNSCHED_CORE_PRIO_MAX
  else if policy = SCHED_NORMAL then 0
  else if policy = SCHED_WEAK then XNSCHED_FIFO_PRIO_MAX
  else -22

/-! ## Temporal-partition schedules (set_tp_config / get_tp_config) -/

/-- `struct sched_tp_window` after `ts2ns` conversion: a candidate
window handed to `set_tp_config` (and returned by `get_tp_config`).
`ptid = -1` denotes an idle/hole window. -/
structure TsWindow where
  offset : Nat
  duration : Nat
  ptid : Int
  deriving DecidableEq, Repr

/-- `struct xnsched_tp_window`: an installed window (offset is the
running sum of the prior durations). -/
structure XnTpWindow where
  w_offset : Nat
  w_part : Int
  deriving DecidableEq, Repr

/-- `struct xnsched_tp_schedule`: the installed, reference-counted
window table (`tf_duration` is the cycle length). -/
structure XnTpSchedule where
  refcount : Nat
  pwins : List XnTpWindow
  tf_duration : Nat
  deriving DecidableEq, Repr

/-- The per-CPU temporal-partition state: the schedule table currently
referenced by the scheduler, if any. -/
structure TpState where
  current : Option XnTpSchedule
  deriving DecidableEq, Repr

/-- The validation/construction loop of `set_tp_config`: walks the
candidate windows keeping the running sum `next_offset`; each window's
offset must equal it, its duration must be positive (`xnticks_t` is
unsigned, so `duration <= 0` means zero), and its partition id must lie
in [-1, TP_NRPART). Returns the built `xnsched_tp_window` list and the
cycle length, or `none` on the first violation. -/
def buildTpWindows : List TsWindow → Nat → Option (List XnTpWindow × Nat)
  | [], next_offset => some ([], next_offset)
  | w :: ws, next_offset =>
    if w.offset ≠ next_offset then none
    else if w.duration = 0 then none
    else if w.ptid < -1 ∨ w.ptid ≥ TP_NRPART then none
    else match buildTpWindows ws (next_offset + w.duration) with
         | none => none
         | some (rest, total) =>
           some (⟨next_offset, w.ptid⟩ :: rest, total)

/-- Modelled from the spec: `xnsched_tp_put_schedule` (sched-tp.c is
not under src/) releases one reference on a table; the table is
destroyed (`none`) once unreferenced. -/
def xnsched_tp_put_schedule (gps : XnTpSchedule) : Option XnTpSchedule :=
  if gps.refcount ≤ 1 then none
  else some { gps with refcount := gps.refcount - 1 }

/-- Result of `set_tp_config`: return code, the new per-CPU state, and
what became of the previous table: `none` when no reference was
released (error path, or no previous table), `some t` when the previous
table's reference was dropped leaving `t` (destroyed when `t = none`). -/
structure TpSetResult where
  ret : Int
  st : TpState
  released : Option (Option XnTpSchedule)
  deriving DecidableEq, Repr

/-- `set_tp_config` from kernel/cobalt/posix/sched.c, over an already
fetched window list. An empty list installs the null schedule. On any
validation failure the candidate is discarded, -EINVAL is returned and
the prior state is left untouched. On success the freshly built table
(refcount 1) is swapped in under the lock and the previous table's
reference is released (`xnsched_tp_put_schedule`, modelled from the
spec). -/
def set_tp_config (st : TpState) (windows : List TsWindow) : TpSetResult :=
  match windows with
  | [] =>
    ⟨0, ⟨none⟩, (st.current.map xnsched_tp_put_schedule)⟩
  | _ :: _ =>
    match buildTpWindows windows 0 with
    | none => ⟨-22, st, none⟩
    | some (pwins, total) =>
      ⟨0, ⟨some ⟨1, pwins, total⟩⟩, (st.current.map xnsched_tp_put_schedule)⟩

/-- The reconstruction loop of `get_tp_config`: each returned window
carries its stored offset and partition id; its duration is the next
window's offset minus its own, and the last window's duration is the
cycle length minus its offset. -/
def reconstructTpWindows : List XnTpWindow → Nat → List TsWindow
  | [], _ => []
  | [w], total => [⟨w.w_offset, total - w.w_offset, w.w_part⟩]
  | w :: w2 :: ws, total =>
    ⟨w.w_offset, w2.w_offset - w.w_offset, w.w_part⟩ ::
      reconstructTpWindows (w2 :: ws) total

/-- `get_tp_config` from kernel/cobalt/posix/sched.c: a read-only
snapshot of the active table (durations reconstructed from offsets),
returning `none` when no schedule is active, and leaving the state
unchanged (the table reference taken by `xnsched_tp_get_schedule` is
dropped again before returning). -/
def get_tp_config (st : TpState) : Option (List TsWindow) × TpState :=
  match st.current with
  | none => (none, st)
  | some gps => (some (reconstructTpWindows gps.pwins gps.tf_duration), st)

/-- The contiguity/positivity condition claim C3 describes: every
window's offset equals the running sum of the prior durations and every
duration is positive. (The partition-id range check of the code is a
further, independent rejection cause.) -/
def tpContiguous : List TsWindow → Nat → Bool
  | [], _ => true
  | w :: ws, next_offset =>
    w.offset = next_offset && w.duration ≠ 0 &&
      tpContiguous ws (next_offset + w.duration)

/-! ## Quota groups (set_quota_config) -/

/-- `struct xnsched_quota_group`: one bandwidth group on a CPU.
`nr_active` counts the threads still attached to the group. -/
structure XnQuotaGroup where
  tgid : Int
  quota_percent : Int
  quota_peak_percent : Int
  nr_active : Nat
  deriving DecidableEq, Repr

/-- The per-CPU quota registry: the groups currently present. -/
structure QuotaState where
  groups : List XnQuotaGroup
  deriving DecidableEq, Repr

/-- The aggregate quota sum over a CPU's groups
(`xnsched_quota_sum_all`, modelled from the spec: sched-quota.c is not
under src/). -/
def quotaSum (st : QuotaState) : Int :=
  (st.groups.map (fun g => g.quota_percent)).sum

/-- Modelled from the spec: `xnsched_quota_create_group` (sched-quota.c
is not under src/). Admits the new group unconditionally — the
aggregate may exceed 100%, over-commit is advisory, never rejected —
and returns the group's id together with the updated aggregate. The
spec's `add_group(percent)` carries the group's percentage. -/
def xnsched_quota_create_group (st : QuotaState) (percent : Int) :
    Int × QuotaState × Int :=
  let tgid : Int := st.groups.length
  let st' : QuotaState := ⟨st.groups ++ [⟨tgid, percent, percent, 0⟩]⟩
  (tgid, st', quotaSum st')

/-- Modelled from the spec: `xnsched_quota_destroy_group` (sched-quota.c
is not under src/). A non-forced removal of a group that still has
members is rejected (-EBUSY) leaving the group intact; otherwise the
group is removed and the updated aggregate returned. -/
def xnsched_quota_destroy_group (st : QuotaState) (tgid : Int)
    (force : Bool) : Except Int (QuotaState × Int) :=
  match st.groups.find? (fun g => g.tgid = tgid) with
  | none => .error (-3)
  | some g =>
    if g.nr_active ≠ 0 ∧ force = false then .error (-16)
    else
      let st' : QuotaState := ⟨st.groups.filter (fun h => h.tgid ≠ tgid)⟩
      .ok (st', quotaSum st')

/-- Modelled from the spec: `xnsched_quota_set_limit` (sched-quota.c is
not under src/). Updates the group's ceilings and returns the updated
aggregate. -/
def xnsched_quota_set_limit (st : QuotaState) (tgid : Int)
    (quota quota_peak : Int) : QuotaState × Int :=
  let st' : QuotaState :=
    ⟨st.groups.map (fun g =>
      if g.tgid = tgid then
        { g with quota_percent := quota, quota_peak_percent := quota_peak }
      else g)⟩
  (st', quotaSum st')

/-- The operation selector of `struct __sched_config_quota`. -/
inductive QuotaOp where
  | add (percent : Int)
  | remove (tgid : Int)
  | force_remove (tgid : Int)
  | set (tgid : Int) (quota quota_peak : Int)
  deriving DecidableEq, Repr

/-- `struct __sched_quota_info`: what `set_quota_config` reports back to
its caller — the affected group's id, its ceilings, and the updated
aggregate quota sum. -/
structure QuotaInfo where
  tgid : Int
  quota : Int
  quota_peak : Int
  quota_sum : Int
  deriving DecidableEq, Repr

/-- `set_quota_config` from kernel/cobalt/posix/sched.c, over the
modelled registry: dispatches add/remove/force-remove/set, and on every
successful operation fills the info block with the group's state and
the updated aggregate quota sum. -/
def set_quota_config (st : QuotaState) (op : QuotaOp) :
    Except Int (QuotaInfo × QuotaState) :=
  match op with
  | .add percent =>
    let (tgid, st', quota_sum) := xnsched_quota_create_group st percent
    .ok (⟨tgid, percent, percent, quota_sum⟩, st')
  | .remove tgid =>
    match st.groups.find? (fun g => g.tgid = tgid) with
    | none => .error (-3)
    | some g =>
      match xnsched_quota_destroy_group st tgid false with
      | .error e => .error e
      | .ok (st', quota_sum) =>
        .ok (⟨g.tgid, g.quota_percent, g.quota_peak_percent, quota_sum⟩, st')
  | .force_remove tgid =>
    match st.groups.find? (fun g => g.tgid = tgid) with
    | none => .error (-3)
    | some g =>
      match xnsched_quota_destroy_group st tgid true with
      | .error e => .error e
      | .ok (st', quota_sum) =>
        .ok (⟨g.tgid, g.quota_percent, g.quota_peak_percent, quota_sum⟩, st')
  | .set tgid quota quota_peak =>
    match st.groups.find? (fun g => g.tgid = tgid) with
    | none => .error (-3)
    | some _ =>
      let (st', quota_sum) := xnsched_quota_set_limit st tgid quota quota_peak
      .ok (⟨tgid, quota, quota_peak, quota_sum⟩, st')

/-! ## Alchemy message queues (lib/alchemy/queue.c)

The message pool (`heapobj` in array mode) is modelled as a list of
slots indexed by message id; payload bytes are a `List Nat`. The
syncobj wait queue is modelled as the ordered list of blocked
receivers, head first in grant order (`syncobj_grant_one` pops the
head, `syncobj_peek_grant` peeks it). -/

/-- `struct alchemy_queue_msg`: size, reference count and payload. -/
structure QMsg where
  size : Nat
  refcount : Nat
  payload : List Nat
  deriving DecidableEq, Repr

/-- One message-pool slot: `used` tells whether the slot is currently
allocated; `msg` holds its (possibly stale, once freed) contents. -/
structure Slot where
  used : Bool
  msg : QMsg
  deriving DecidableEq, Repr

/-- `struct alchemy_queue_wait` together with the locality of the
blocked thread: `islocal` is `threadobj_local_p`, `userbuf` the
caller-supplied destination contents (capacity = length), `usersz` its
remaining capacity / recorded transfer length, and `msg` the result
slot a granter writes (a message id). -/
structure Waiter where
  islocal : Bool
  usersz : Nat
  userbuf : List Nat
  msg : Option Nat
  deriving DecidableEq, Repr

/-- `struct alchemy_queue`: creation limit (0 = Q_UNLIMITED), the
pending-message list `mq` of message ids (head = front), its count
`mcount`, the blocked receivers, and the message pool. -/
structure AlchemyQueue where
  limit : Nat
  mq : List Nat
  mcount : Nat
  waiters : List Waiter
  slots : List Slot
  deriving DecidableEq, Repr

/-- The send/write mode bitmask: Q_BROADCAST and Q_URGENT bits
(Q_NORMAL is both clear). -/
structure SendMode where
  broadcast : Bool
  urgent : Bool
  deriving DecidableEq, Repr

/-- Outcome of a send/write call: return value (receivers woken, or a
negative errno), the queue afterwards, and the receivers granted (in
grant order, each with its result slot written). -/
structure QOpResult where
  ret : Int
  q : AlchemyQueue
  granted : List Waiter
  deriving DecidableEq, Repr

/-- The grant loop shared by `rt_queue_send` and `rt_queue_write`:
`syncobj_grant_one` in a do/while over Q_BROADCAST. Non-broadcast
grants at most the head waiter; broadcast grants every waiter. Returns
(granted, remaining), each granted waiter with its `msg` slot written. -/
def grantWaiters (ws : List Waiter) (bufId : Nat) (broadcast : Bool) :
    List Waiter × List Waiter :=
  if broadcast then
    (ws.map (fun w => { w with msg := some bufId }), [])
  else
    match ws with
    | [] => ([], [])
    | w :: rest => ([{ w with msg := some bufId }], rest)

/-- `heapobj_alloc` over the slotted pool: index of the first free
slot, or `none` when the pool is exhausted. -/
def allocSlot : List Slot → Option Nat
  | [] => none
  | s :: rest =>
    if s.used then (allocSlot rest).map (fun i => i + 1) else some 0

/-- `rt_queue_alloc` (queue handle already validated): claims a pool
slot, initializing size and `refcount = 1`; returns the message id, or
`none` (NULL) when the pool is exhausted. -/
def rt_queue_alloc (q : AlchemyQueue) (size : Nat) :
    Option Nat × AlchemyQueue :=
  match allocSlot q.slots with
  | none => (none, q)
  | some j =>
    (some j,
     { q with slots :=
         q.slots.set j ⟨true, ⟨size, 1, List.replicate size 0⟩⟩ })

/-- `rt_queue_free` (queue handle already validated): an id outside the
pool fails `heapobj_validate` (-EINVAL); a zero refcount is a
double-free (-EINVAL, nothing released); otherwise the refcount is
decremented and the slot physically freed exactly when it reaches 0. -/
def rt_queue_free (q : AlchemyQueue) (bufId : Nat) : Int × AlchemyQueue :=
  match q.slots.get? bufId with
  | none => (-22, q)
  | some s =>
    if s.msg.refcount = 0 then (-22, q)
    else if s.msg.refcount = 1 then
      (0, { q with slots := q.slots.set bufId ⟨false, { s.msg with refcount := 0 }⟩ })
    else
      (0, { q with slots := q.slots.set bufId ⟨s.used, { s.msg with refcount := s.msg.refcount - 1 }⟩ })

/-- `rt_queue_send` (queue handle already validated). In code order:
the capacity check (-ENOMEM when `limit` is finite and `mcount` has
reached it, before anything is touched), the buffer refcount check
(-EINVAL at 0), consumption of the sender's reference and update of the
message size, the grant loop (one receiver, or all under Q_BROADCAST,
each grant adding one reference), and — when nobody was woken — either
the broadcast refcount fix-up (no enqueue) or insertion into the
pending list (front for Q_URGENT, back otherwise). -/
def rt_queue_send (q : AlchemyQueue) (bufId : Nat) (size : Nat)
    (mode : SendMode) : QOpResult :=
  if q.limit ≠ 0 ∧ q.limit ≤ q.mcount then ⟨-12, q, []⟩
  else
    match q.slots.get? bufId with
    | none => ⟨-22, q, []⟩
    | some s =>
      if s.msg.refcount = 0 then ⟨-22, q, []⟩
      else
        let rc := s.msg.refcount - 1
        let (granted, remaining) := grantWaiters q.waiters bufId mode.broadcast
        let n := granted.length
        if n ≠ 0 then
          ⟨n,
           { q with
             slots := q.slots.set bufId ⟨s.used, ⟨size, rc + n, s.msg.payload⟩⟩,
             waiters := remaining },
           granted⟩
        else if mode.broadcast then
          ⟨0,
           { q with
             slots := q.slots.set bufId ⟨s.used, ⟨size, rc + 1, s.msg.payload⟩⟩ },
           []⟩
        else
          ⟨0,
           { q with
             slots := q.slots.set bufId ⟨s.used, ⟨size, rc, s.msg.payload⟩⟩,
             mcount := q.mcount + 1,
             mq := if mode.urgent then bufId :: q.mq else q.mq ++ [bufId] },
           []⟩

/-- The enqueue branch of `rt_queue_write` (reached when no local
receiver with a destination buffer is at the head of the wait queue):
broadcast with zero waiters is a no-op; otherwise capacity is checked,
a pool buffer is allocated with `refcount = 0` and the payload copied
in, and the message is either appended/prepended to the pending list
(no waiter) or handed to the grant loop (one reference per grant). -/
def queue_write_enqueue (q : AlchemyQueue) (data : List Nat)
    (mode : SendMode) : QOpResult :=
  let nwaiters := q.waiters.length
  if nwaiters = 0 ∧ mode.broadcast then ⟨0, q, []⟩
  else if q.limit ≠ 0 ∧ q.limit ≤ q.mcount then ⟨-12, q, []⟩
  else
    match allocSlot q.slots with
    | none => ⟨-12, q, []⟩
    | some j =>
      if nwaiters = 0 then
        ⟨0,
         { q with
           slots := q.slots.set j ⟨true, ⟨data.length, 0, data⟩⟩,
           mcount := q.mcount + 1,
           mq := if mode.urgent then j :: q.mq else q.mq ++ [j] },
         []⟩
      else
        let (granted, remaining) := grantWaiters q.waiters j mode.broadcast
        ⟨granted.length,
         { q with
           slots := q.slots.set j ⟨true, ⟨data.length, granted.length, data⟩⟩,
           waiters := remaining },
         granted⟩

/-- The body of `rt_queue_write` after handle validation: the fast path
peeks the head waiter; if it is local and supplied a destination buffer
of non-zero capacity, the payload is copied straight into it (truncated
to its capacity, the transfer length recorded in `usersz`), that waiter
is granted (`syncobj_grant_to`) and 1 is returned — no pool allocation,
no enqueue. Otherwise the enqueue branch runs. -/
def rt_queue_write_body (q : AlchemyQueue) (data : List Nat)
    (mode : SendMode) : QOpResult :=
  match q.waiters with
  | w :: ws =>
    if w.islocal ∧ w.usersz ≠ 0 then
      let sz := min data.length w.usersz
      ⟨1,
       { q with waiters := ws },
       [{ w with usersz := sz,
                 userbuf := data.take sz ++ w.userbuf.drop sz }]⟩
    else queue_write_enqueue q data mode
  | [] => queue_write_enqueue q data mode

/-- `rt_queue_write`, full entry: a zero-size write returns 0 at once,
before the queue handle (`none` = invalid descriptor) is even looked
at; an invalid handle then fails -EINVAL. -/
def rt_queue_write (qref : Option AlchemyQueue) (data : List Nat)
    (mode : SendMode) : Int × Option AlchemyQueue × List Waiter :=
  if data.length = 0 then (0, qref, [])
  else
    match qref with
    | none => (-22, none, [])
    | some q =>
      let r := rt_queue_write_body q data mode
      (r.ret, some r.q, r.granted)

/-- Outcome of a receive/read call: either an immediate return (value
and resulting queue reference), or suspension of the caller on the wait
queue. -/
inductive RecvOutcome where
  | ret (v : Int) (qref : Option AlchemyQueue)
  | blocks (q : AlchemyQueue)
  deriving DecidableEq, Repr

/-- `rt_queue_receive_timed`. `isXeno` is `threadobj_current_p` (the
caller can suspend), `pollMode` is `alchemy_poll_mode(abs_timeout)`
(TM_NONBLOCK). A caller that cannot suspend issuing a blocking call is
rejected with -EPERM before the queue handle is even validated. With a
message pending, the head is popped, its refcount incremented (the
receiver now owns a reference) and its size returned. Otherwise the
call either fails -EWOULDBLOCK (poll mode) or suspends. -/
def rt_queue_receive_timed (isXeno pollMode : Bool)
    (qref : Option AlchemyQueue) : RecvOutcome :=
  if ¬isXeno ∧ ¬pollMode then .ret (-1) qref
  else
    match qref with
    | none => .ret (-22) none
    | some q =>
      match q.mq with
      | m :: rest =>
        match q.slots.get? m with
        | none => .ret (-22) (some q)
        | some s =>
          .ret (Int.ofNat s.msg.size)
            (some { q with
                    mq := rest,
                    mcount := q.mcount - 1,
                    slots := q.slots.set m
                      ⟨s.used, { s.msg with refcount := s.msg.refcount + 1 }⟩ })
      | [] =>
        if pollMode then .ret (-11) (some q) else .blocks q

/-- `rt_queue_read_timed` (result outcome, and the caller's destination
buffer afterwards). The non-suspendable-context check comes first (even
before the zero-size shortcut), then a zero-size read returns 0, then
the handle is validated. With a message pending the head is popped,
copied truncated to the destination's capacity, and its pool slot freed
directly (`heapobj_free`); otherwise the call fails -EWOULDBLOCK (poll
mode) or suspends. -/
def rt_queue_read_timed (isXeno pollMode : Bool)
    (qref : Option AlchemyQueue) (dest : List Nat) :
    RecvOutcome × List Nat :=
  if ¬isXeno ∧ ¬pollMode then (.ret (-1) qref, dest)
  else if dest.length = 0 then (.ret 0 qref, dest)
  else
    match qref with
    | none => (.ret (-22) none, dest)
    | some q =>
      match q.mq with
      | m :: rest =>
        match q.slots.get? m with
        | none => (.ret (-22) (some q), dest)
        | some s =>
          let n := min s.msg.size dest.length
          (.ret (Int.ofNat n)
             (some { q with
                     mq := rest,
                     mcount := q.mcount - 1,
                     slots := q.slots.set m ⟨false, s.msg⟩ }),
           s.msg.payload.take n ++ dest.drop n)
      | [] =>
        if pollMode then (.ret (-11) (some q), dest) else (.blocks q, dest)

/-- `rt_queue_flush` (queue handle already validated): empties the
pending list, freeing every buffered message's slot directly
(`heapobj_free`), and returns the count flushed. Blocked receivers are
untouched. -/
def rt_queue_flush (q : AlchemyQueue) : Int × AlchemyQueue :=
  (Int.ofNat q.mcount,
   { q with
     mcount := 0,
     mq := [],
     slots := q.mq.foldl
       (fun sl m =>
         match sl.get? m with
         | some s => sl.set m ⟨false, s.msg⟩
         | none => sl) q.slots })

/-! ## Concrete fixtures used by witnesses and counterexamples -/

/-- Parameters with a priority one above the FIFO/TP/QUOTA priority
window, targeting partition 2. -/
def pexHigh : SchedParamEx :=
  ⟨XNSCHED_FIFO_PRIO_MAX + 1, 0, 0, 0, 0, 0, 2, 0⟩

/-- A previously installed two-reference schedule table. -/
def tpPrior : TpState := ⟨some ⟨2, [⟨0, 0⟩], 7⟩⟩

/-- The spec's example windows: offsets [0,10,25], durations [10,15,5]. -/
def specWindows : List TsWindow := [⟨0, 10, 0⟩, ⟨10, 15, 1⟩, ⟨25, 5, 2⟩]

/-- A reordering of `specWindows` that breaks contiguity. -/
def badWindows : List TsWindow := [⟨10, 15, 1⟩, ⟨0, 10, 0⟩, ⟨25, 5, 2⟩]

/-- Quota registry after `add 60` from the empty registry. -/
def qst1 : QuotaState := ⟨[⟨0, 60, 60, 0⟩]⟩

/-- Quota registry after `add 60` then `add 70`. -/
def qst2 : QuotaState := ⟨[⟨0, 60, 60, 0⟩, ⟨1, 70, 70, 0⟩]⟩

/-- A limit-1 queue already holding one pending message (id 0), with a
second allocated buffer (id 1) ready to send. -/
def Qfull : AlchemyQueue :=
  ⟨1, [0], 1, [],
   [⟨true, ⟨4, 0, [1, 2, 3, 4]⟩⟩, ⟨true, ⟨2, 1, [5, 6]⟩⟩]⟩

/-- An unlimited queue with no waiter and one allocated buffer (id 0,
refcount 1) about to be broadcast. -/
def Qb : AlchemyQueue := ⟨0, [], 0, [], [⟨true, ⟨3, 1, [7, 8, 9]⟩⟩]⟩

/-- A queue with exactly one local receiver blocked in `rt_queue_read`
with a 3-byte destination buffer, and one free pool slot. -/
def Qw : AlchemyQueue :=
  ⟨0, [], 0, [⟨true, 3, [9, 9, 9, 9], none⟩], [⟨false, ⟨0, 0, []⟩⟩]⟩

/-- A queue with one pending two-reference message (id 0), one free
slot (id 1) and one blocked remote receiver. -/
def Qd : AlchemyQueue :=
  ⟨0, [0], 1, [⟨false, 0, [], none⟩],
   [⟨true, ⟨2, 2, [1, 2]⟩⟩, ⟨false, ⟨0, 0, []⟩⟩]⟩

/-! ## Helper lemmas -/

lemma allocSlot_lt_length :
    ∀ (sl : List Slot) (j : Nat), allocSlot sl = some j → j < sl.length := by
  intro sl
  induction sl with
  | nil => intro j h; simp [allocSlot] at h
  | cons s rest ih =>
    intro j h
    simp only [allocSlot] at h
    by_cases hu : s.used
    · rw [if_pos hu] at h
      rcases Option.map_eq_some'.mp h with ⟨i, hi, rfl⟩
      have := ih i hi
      simp only [List.length_cons]
      omega
    · rw [if_neg hu] at h
      cases h
      simp

lemma get?_some_lt {α : Type} {l : List α} {i : Nat} {a : α}
    (h : l.get? i = some a) : i < l.length := by
  rcases List.get?_eq_some.mp h with ⟨hlt, _⟩
  exact hlt

lemma buildTpWindows_contiguous :
    ∀ (ws : List TsWindow) (s : Nat) (pt : List XnTpWindow × Nat),
      buildTpWindows ws s = some pt → tpContiguous ws s = true := by
  intro ws
  induction ws with
  | nil => intro s pt _; rfl
  | cons w rest ih =>
    intro s pt h
    simp only [buildTpWindows] at h
    by_cases h1 : w.offset ≠ s
    · rw [if_pos h1] at h; cases h
    · rw [if_neg h1] at h
      by_cases h2 : w.duration = 0
      · rw [if_pos h2] at h; cases h
      · rw [if_neg h2] at h
        by_cases h3 : w.ptid < -1 ∨ w.ptid ≥ TP_NRPART
        · rw [if_pos h3] at h; cases h
        · rw [if_neg h3] at h
          cases hr : buildTpWindows rest (s + w.duration) with
          | none => rw [hr] at h; cases h
          | some pt' =>
            simp only [tpContiguous, Bool.and_eq_true, decide_eq_true_eq,
                       bne_iff_ne, ne_eq]
            push_neg at h1
            exact ⟨⟨h1, h2⟩, ih (s + w.duration) pt' hr⟩

lemma reconstruct_buildTpWindows :
    ∀ (ws : List TsWindow) (s : Nat) (pw : List XnTpWindow) (tot : Nat),
      buildTpWindows ws s = some (pw, tot) →
      reconstructTpWindows pw tot = ws := by
  intro ws
  induction ws with
  | nil =>
    intro s pw tot h
    simp only [buildTpWindows, Option.some.injEq, Prod.mk.injEq] at h
    rw [← h.1, reconstructTpWindows]
  | cons w rest ih =>
    intro s pw tot h
    simp only [buildTpWindows] at h
    by_cases h1 : w.offset ≠ s
    · rw [if_pos h1] at h; cases h
    · rw [if_neg h1] at h
      by_cases h2 : w.duration = 0
      · rw [if_pos h2] at h; cases h
      · rw [if_neg h2] at h
        by_cases h3 : w.ptid < -1 ∨ w.ptid ≥ TP_NRPART
        · rw [if_pos h3] at h; cases h
        · rw [if_neg h3] at h
          push_neg at h1
          cases hr : buildTpWindows rest (s + w.duration) with
          | none => rw [hr] at h; cases h
          | some pt' =>
            rw [hr] at h
            obtain ⟨rest', tot'⟩ := pt'
            simp only [Option.some.injEq, Prod.mk.injEq] at h
            obtain ⟨hpw, htot⟩ := h
            subst htot
            have hrec := ih (s + w.duration) rest' tot' hr
            rw [← hpw]
            cases rest with
            | nil =>
              simp only [buildTpWindows, Option.some.injEq, Prod.mk.injEq] at hr
              rw [← hr.1]
              simp only [reconstructTpWindows]
              have : s + w.duration - s = w.duration := by omega
              rw [← hr.2, this, ← h1]
            | cons w2 rest2 =>
              have hhead : ∃ t, rest' = ⟨s + w.duration, w2.ptid⟩ :: t := by
                simp only [buildTpWindows] at hr
                by_cases g1 : w2.offset ≠ s + w.duration
                · rw [if_pos g1] at hr; cases hr
                · rw [if_neg g1] at hr
                  by_cases g2 : w2.duration = 0
                  · rw [if_pos g2] at hr; cases hr
                  · rw [if_neg g2] at hr
                    by_cases g3 : w2.ptid < -1 ∨ w2.ptid ≥ TP_NRPART
                    · rw [if_pos g3] at hr; cases hr
                    · rw [if_neg g3] at hr
                      cases hr2 : buildTpWindows rest2 (s + w.duration + w2.duration) with
                      | none => rw [hr2] at hr; cases hr
                      | some pt2 =>
                        rw [hr2] at hr
                        simp only [Option.some.injEq, Prod.mk.injEq] at hr
                        exact ⟨pt2.1, (hr.1).symm⟩
              obtain ⟨t, ht⟩ := hhead
              subst ht
              simp only [reconstructTpWindows]
              have hd : s + w.duration - s = w.duration := by omega
              rw [hd, hrec, ← h1]

/-! ## Claim C2 -/

/-- C2, counterexample. The claim says every scheduling policy rejects
a priority outside its [min,max] window at resolution time. It is false
for SCHED_TP (and likewise SCHED_SPORADIC and SCHED_QUOTA): with
priority XNSCHED_FIFO_PRIO_MAX + 1 — strictly above the window that
`sched_minprio`/`sched_maxprio` report for SCHED_TP — the resolver
still selects the TP class, copying the priority verbatim with no range
check. -/
theorem C2_counterexample_tp_accepts_out_of_window :
    sched_maxprio SCHED_TP < pexHigh.sched_priority ∧
    0 ≤ pexHigh.sched_priority ∧
    cobalt_sched_policy_param SCHED_TP pexHigh none =
      some (.tp, .tp pexHigh.sched_priority 2, none) := by
  refine ⟨by decide, by decide, ?_⟩
  decide

/-- C2, amended: only the policies whose case in
`cobalt_sched_policy_param` carries a range check — SCHED_NORMAL,
SCHED_WEAK, SCHED_FIFO, SCHED_RR and SCHED_COBALT — reject a
nonnegative priority outside their [min,max] window, returning no class
(and, the resolver being pure, mutating nothing); SCHED_SPORADIC,
SCHED_TP and SCHED_QUOTA copy their parameters without any
priority-range validation at resolution time. -/
theorem C2_checked_policies_reject_out_of_window
    (policy : Int) (pex : SchedParamEx) (tsr : Option Nat)
    (hp : policy = SCHED_NORMAL ∨ policy = SCHED_WEAK ∨
          policy = SCHED_FIFO ∨ policy = SCHED_RR ∨ policy = SCHED_COBALT)
    (hpos : 0 ≤ pex.sched_priority)
    (hout : pex.sched_priority < sched_minprio policy ∨
            sched_maxprio policy < pex.sched_priority) :
    cobalt_sched_policy_param policy pex tsr = none := by
  have h0 : ¬(pex.sched_priority < 0) := not_lt.mpr hpos
  rcases hp with h | h | h | h | h <;> subst h <;>
    norm_num [sched_minprio, sched_maxprio, SCHED_NORMAL, SCHED_WEAK,
      SCHED_FIFO, SCHED_RR, SCHED_COBALT, SCHED_SPORADIC, SCHED_TP,
      SCHED_QUOTA, XNSCHED_FIFO_PRIO_MIN,
      XNSCHED_FIFO_PRIO_MAX, XNSCHED_CORE_PRIO_MIN, XNSCHED_CORE_PRIO_MAX,
      XNSCHED_WEAK_PRIO_MIN, XNSCHED_WEAK_PRIO_MAX] at hout <;>
    simp only [cobalt_sched_policy_param, if_neg h0] <;>
    norm_num [SCHED_NORMAL, SCHED_WEAK, SCHED_FIFO, SCHED_RR,
      SCHED_COBALT, SCHED_SPORADIC, SCHED_TP, SCHED_QUOTA,
      XNSCHED_FIFO_PRIO_MIN, XNSCHED_FIFO_PRIO_MAX,
      XNSCHED_CORE_PRIO_MIN, XNSCHED_CORE_PRIO_MAX,
      XNSCHED_WEAK_PRIO_MIN, XNSCHED_WEAK_PRIO_MAX] <;>
    intros <;> exfalso <;> omega

/-- C2, witness for the amended theorem: SCHED_FIFO with priority
XNSCHED_FIFO_PRIO_MAX + 1 (outside [1,99]) is rejected. -/
theorem C2_witness :
    0 ≤ pexHigh.sched_priority ∧
    sched_maxprio SCHED_FIFO < pexHigh.sched_priority ∧
    cobalt_sched_policy_param SCHED_FIFO pexHigh none = none :=
  ⟨by decide, by decide,
   C2_checked_policies_reject_out_of_window SCHED_FIFO pexHigh none
     (Or.inr (Or.inr (Or.inl rfl))) (by decide) (Or.inr (by decide))⟩

/-! ## Claim C3 -/

/-- C3: `set_tp_config` rejects with -EINVAL any candidate window list
in which some window's offset differs from the running sum of the prior
durations or some duration is not positive, discarding the candidate,
leaving the prior schedule in place and releasing no reference; on
success (a non-empty list passing the whole validation loop) the
freshly built table is installed with refcount 1 and the previous
table's reference is released via `xnsched_tp_put_schedule`. -/
theorem C3_tp_set_schedule_validation
    (st : TpState) (ws : List TsWindow) :
    (tpContiguous ws 0 = false → set_tp_config st ws = ⟨-22, st, none⟩) ∧
    (∀ pw tot, ws ≠ [] → buildTpWindows ws 0 = some (pw, tot) →
      set_tp_config st ws =
        ⟨0, ⟨some ⟨1, pw, tot⟩⟩, st.current.map xnsched_tp_put_schedule⟩) := by
  constructor
  · intro hbad
    cases hws : ws with
    | nil => rw [hws] at hbad; simp [tpContiguous] at hbad
    | cons w rest =>
      rw [hws] at hbad
      simp only [set_tp_config]
      cases hb : buildTpWindows (w :: rest) 0 with
      | none => rfl
      | some pt =>
        have := buildTpWindows_contiguous (w :: rest) 0 pt hb
        rw [this] at hbad
        cases hbad
  · intro pw tot hne hb
    cases hws : ws with
    | nil => exact absurd hws hne
    | cons w rest =>
      rw [hws] at hb
      simp only [set_tp_config, hb]

/-- C3, witness: with a two-reference prior table installed, the spec's
contiguous windows (offsets [0,10,25], durations [10,15,5]) are
accepted — the new table is installed with refcount 1 and the prior
table's reference is released — while a contiguity-breaking reordering
is rejected with -EINVAL leaving the prior table untouched. -/
theorem C3_witness :
    set_tp_config tpPrior badWindows = ⟨-22, tpPrior, none⟩ ∧
    set_tp_config tpPrior specWindows =
      ⟨0, ⟨some ⟨1, [⟨0, 0⟩, ⟨10, 1⟩, ⟨25, 2⟩], 30⟩⟩,
       some (some ⟨1, [⟨0, 0⟩], 7⟩)⟩ :=
  ⟨(C3_tp_set_schedule_validation tpPrior badWindows).1 (by decide),
   (C3_tp_set_schedule_validation tpPrior specWindows).2
     [⟨0, 0⟩, ⟨10, 1⟩, ⟨25, 2⟩] 30 (by decide) (by decide)⟩

/-! ## Claim C5 -/

/-- C5: after a successful `set_tp_config` with a non-empty window
list, `get_tp_config` returns exactly the installed windows — the same
count, offsets and partition ids, with each duration reconstructed as
the next offset minus its own (the last as the cycle length minus the
last offset) — and leaves the state unchanged. -/
theorem C5_tp_get_schedule_roundtrip
    (st : TpState) (ws : List TsWindow) (r : TpSetResult)
    (hne : ws ≠ []) (hset : set_tp_config st ws = r) (hok : r.ret = 0) :
    get_tp_config r.st = (some ws, r.st) := by
  cases hws : ws with
  | nil => exact absurd hws hne
  | cons w rest =>
    rw [hws] at hset
    simp only [set_tp_config] at hset
    cases hb : buildTpWindows (w :: rest) 0 with
    | none =>
      rw [hb] at hset
      rw [← hset] at hok
      cases hok
    | some pt =>
      obtain ⟨pw, tot⟩ := pt
      rw [hb] at hset
      rw [← hset]
      simp only [get_tp_config]
      rw [reconstruct_buildTpWindows (w :: rest) 0 pw tot hb]

/-- C5, witness: the spec's windows round-trip through
`set_tp_config`/`get_tp_config` unchanged. -/
theorem C5_witness :
    get_tp_config (set_tp_config tpPrior specWindows).st =
      (some specWindows, (set_tp_config tpPrior specWindows).st) :=
  C5_tp_get_schedule_roundtrip tpPrior specWindows
    (set_tp_config tpPrior specWindows) (by decide) rfl (by decide)

/-! ## Claim C6 -/

/-- C6: quota-group creation never rejects over-commitment of a CPU's
aggregate quota — adding any group always succeeds whatever the current
aggregate — and every successful quota operation (add, remove,
force-remove, set-limit) reports the updated aggregate quota sum of the
resulting registry back to its caller; concretely, `add 60` then
`add 70` on one CPU both succeed and the second reports aggregate 130. -/
theorem C6_quota_overcommit_allowed :
    (∀ (st : QuotaState) (percent : Int),
      set_quota_config st (.add percent) =
        .ok (⟨st.groups.length, percent, percent, quotaSum st + percent⟩,
             ⟨st.groups ++ [⟨st.groups.length, percent, percent, 0⟩]⟩)) ∧
    (∀ (st : QuotaState) (op : QuotaOp) (info : QuotaInfo) (st' : QuotaState),
      set_quota_config st op = .ok (info, st') →
      info.quota_sum = quotaSum st') ∧
    (set_quota_config ⟨[]⟩ (.add 60) = .ok (⟨0, 60, 60, 60⟩, qst1) ∧
     set_quota_config qst1 (.add 70) = .ok (⟨1, 70, 70, 130⟩, qst2)) := by
  refine ⟨?_, ?_, by rfl, by rfl⟩
  · intro st percent
    simp only [set_quota_config, xnsched_quota_create_group, quotaSum,
               List.map_append, List.sum_append, List.map_cons,
               List.map_nil, List.sum_cons, List.sum_nil, add_zero]
  · intro st op info st' h
    cases op with
    | add percent =>
      simp only [set_quota_config, xnsched_quota_create_group,
                 Except.ok.injEq, Prod.mk.injEq] at h
      obtain ⟨hinfo, hst⟩ := h
      rw [← hinfo, ← hst]
    | remove tgid =>
      simp only [set_quota_config] at h
      cases hf : QuotaState.groups st |>.find? (fun g => g.tgid = tgid) with
      | none => rw [hf] at h; cases h
      | some g =>
        rw [hf] at h
        simp only [xnsched_quota_destroy_group, hf] at h
        split at h
        · cases h
        · rename_i st2 qs heq
          simp only [Except.ok.injEq, Prod.mk.injEq] at h
          obtain ⟨hinfo, hst⟩ := h
          split at heq
          · cases heq
          · simp only [Except.ok.injEq, Prod.mk.injEq] at heq
            obtain ⟨hst2, hqs⟩ := heq
            subst hqs
            subst hst2
            rw [← hinfo, ← hst]
    | force_remove tgid =>
      simp only [set_quota_config] at h
      cases hf : QuotaState.groups st |>.find? (fun g => g.tgid = tgid) with
      | none => rw [hf] at h; cases h
      | some g =>
        rw [hf] at h
        simp only [xnsched_quota_destroy_group, hf] at h
        split at h
        · cases h
        · rename_i st2 qs heq
          simp only [Except.ok.injEq, Prod.mk.injEq] at h
          obtain ⟨hinfo, hst⟩ := h
          split at heq
          · cases heq
          · simp only [Except.ok.injEq, Prod.mk.injEq] at heq
            obtain ⟨hst2, hqs⟩ := heq
            subst hqs
            subst hst2
            rw [← hinfo, ← hst]
    | set tgid quota quota_peak =>
      simp only [set_quota_config] at h
      cases hf : QuotaState.groups st |>.find? (fun g => g.tgid = tgid) with
      | none => rw [hf] at h; cases h
      | some g =>
        rw [hf] at h
        simp only [xnsched_quota_set_limit, Except.ok.injEq,
                   Prod.mk.injEq] at h
        obtain ⟨hinfo, hst⟩ := h
        rw [← hinfo, ← hst]

/-- C6, witness: instantiating the aggregate-reporting conjunct at the
concrete second add — its reported sum, 130, is the aggregate of the
resulting registry, which holds groups of 60% and 70% on one CPU. -/
theorem C6_witness :
    set_quota_config qst1 (.add 70) = .ok (⟨1, 70, 70, 130⟩, qst2) ∧
    (⟨1, 70, 70, 130⟩ : QuotaInfo).quota_sum = quotaSum qst2 :=
  ⟨by rfl,
   C6_quota_overcommit_allowed.2.1 qst1 (.add 70) ⟨1, 70, 70, 130⟩ qst2
     (by rfl)⟩

lemma grantWaiters_fst_ne_nil {ws : List Waiter} {b : Nat} {bc : Bool}
    (h : ws ≠ []) : (grantWaiters ws b bc).1 ≠ [] := by
  cases ws with
  | nil => exact absurd rfl h
  | cons w rest =>
    unfold grantWaiters
    cases bc <;> simp

lemma rt_queue_send_ret_cases (q : AlchemyQueue) (b sz : Nat)
    (mode : SendMode) :
    ((rt_queue_send q b sz mode).ret = -12 ∧
       q.limit ≠ 0 ∧ q.limit ≤ q.mcount) ∨
    (rt_queue_send q b sz mode).ret = -22 ∨
    ((rt_queue_send q b sz mode).ret =
       ((rt_queue_send q b sz mode).granted.length : Int) ∧
     ¬(q.limit ≠ 0 ∧ q.limit ≤ q.mcount)) := by
  by_cases hcap : q.limit ≠ 0 ∧ q.limit ≤ q.mcount
  · left
    refine ⟨?_, hcap⟩
    simp only [rt_queue_send, if_pos hcap]
  · cases hs : q.slots.get? b with
    | none =>
      right; left
      simp only [rt_queue_send, if_neg hcap, hs]
    | some s =>
      by_cases hrc : s.msg.refcount = 0
      · right; left
        simp only [rt_queue_send, if_neg hcap, hs, if_pos hrc]
      · right; right
        refine ⟨?_, hcap⟩
        simp only [rt_queue_send, if_neg hcap, hs, if_neg hrc]
        rcases hgw : grantWaiters q.waiters b mode.broadcast with ⟨granted, remaining⟩
        by_cases hn : granted.length ≠ 0
        · simp only [if_pos hn]
        · simp only [if_neg hn]
          push_neg at hn
          by_cases hb : mode.broadcast
          · simp only [if_pos hb]
            simp [List.length_eq_zero.mp hn]
          · simp only [if_neg hb]
            simp [List.length_eq_zero.mp hn]

/-! ## Claim C1 -/

/-- C1: `rt_queue_send` on a finite-limit queue fails with -ENOMEM
exactly when the pending-message count has reached the limit, and then
nothing at all changes — queue fields, pending list, the buffer's
refcount and payload (all carried by the returned state) are untouched
and nobody is woken. Under the reachable-state invariant that receivers
only block on an empty queue (`hinv`: waiters present implies an empty
pending list), the failure also implies that no receiver was blocked
waiting, i.e. the capacity failure happens only when no waiter could
have consumed the message immediately. -/
theorem C1_send_capacity_failure
    (q : AlchemyQueue) (b sz : Nat) (mode : SendMode)
    (hlim : q.limit ≠ 0)
    (hinv : q.waiters ≠ [] → q.mcount = 0) :
    ((rt_queue_send q b sz mode).ret = -12 ↔ q.limit ≤ q.mcount) ∧
    (q.limit ≤ q.mcount →
      rt_queue_send q b sz mode = ⟨-12, q, []⟩ ∧ q.waiters = []) := by
  have hcapfail : q.limit ≤ q.mcount →
      rt_queue_send q b sz mode = ⟨-12, q, []⟩ := by
    intro hge
    simp only [rt_queue_send, if_pos (And.intro hlim hge)]
  constructor
  · constructor
    · intro hr
      rcases rt_queue_send_ret_cases q b sz mode with ⟨_, _, hge⟩ | h22 | ⟨hlen, _⟩
      · exact hge
      · rw [hr] at h22; omega
      · rw [hr] at hlen
        have : (0 : Int) ≤ ((rt_queue_send q b sz mode).granted.length : Int) :=
          Int.ofNat_nonneg _
        omega
    · intro hge
      rw [hcapfail hge]
  · intro hge
    refine ⟨hcapfail hge, ?_⟩
    by_contra hw
    have := hinv hw
    omega

/-- C1, witness: on a limit-1 queue already holding one pending
message, sending the second allocated buffer with no waiter fails with
-ENOMEM and leaves the queue and the buffer exactly as they were. -/
theorem C1_witness :
    Qfull.limit ≤ Qfull.mcount ∧
    rt_queue_send Qfull 1 2 ⟨false, false⟩ = ⟨-12, Qfull, []⟩ ∧
    Qfull.waiters = [] :=
  ⟨by decide,
   (C1_send_capacity_failure Qfull 1 2 ⟨false, false⟩ (by decide)
       (fun h => by simp [Qfull] at h)).2 (by decide)⟩

/-! ## Claim C4 -/

/-- C4: the reference-count discipline of message buffers.
(1) `rt_queue_alloc` initializes a fresh buffer with refcount 1.
(2) A grant by `rt_queue_send` adds one reference per receiver woken:
when receivers are waiting, the buffer ends with its refcount equal to
the count after the sender's reference is consumed plus one per granted
receiver. (3) A grant by `rt_queue_write` likewise adds one reference
per receiver woken: the pool buffer it allocates starts at refcount 0
and ends with refcount equal to the number of granted receivers.
(4) A pop by `rt_queue_receive_timed` adds one reference for the
receiver. (5) `rt_queue_free` rejects a zero-refcount buffer with
-EINVAL releasing nothing (double-free), and otherwise subtracts one,
physically returning the slot to the pool exactly when the count
reaches zero. -/
theorem C4_refcount_discipline :
    (∀ (q : AlchemyQueue) (sz j : Nat) (q' : AlchemyQueue),
      rt_queue_alloc q sz = (some j, q') →
      q'.slots.get? j = some ⟨true, ⟨sz, 1, List.replicate sz 0⟩⟩) ∧
    (∀ (q : AlchemyQueue) (b sz : Nat) (mode : SendMode) (s : Slot)
       (granted remaining : List Waiter),
      ¬(q.limit ≠ 0 ∧ q.limit ≤ q.mcount) →
      q.slots.get? b = some s →
      s.msg.refcount ≠ 0 →
      q.waiters ≠ [] →
      grantWaiters q.waiters b mode.broadcast = (granted, remaining) →
      rt_queue_send q b sz mode =
        ⟨(granted.length : Int),
         { q with
           slots := q.slots.set b
             ⟨s.used, ⟨sz, s.msg.refcount - 1 + granted.length, s.msg.payload⟩⟩,
           waiters := remaining },
         granted⟩) ∧
    (∀ (q : AlchemyQueue) (data : List Nat) (mode : SendMode) (j : Nat)
       (granted remaining : List Waiter),
      q.waiters ≠ [] →
      ¬(q.limit ≠ 0 ∧ q.limit ≤ q.mcount) →
      allocSlot q.slots = some j →
      grantWaiters q.waiters j mode.broadcast = (granted, remaining) →
      queue_write_enqueue q data mode =
        ⟨(granted.length : Int),
         { q with
           slots := q.slots.set j ⟨true, ⟨data.length, granted.length, data⟩⟩,
           waiters := remaining },
         granted⟩ ∧
      (queue_write_enqueue q data mode).q.slots.get? j =
        some ⟨true, ⟨data.length, granted.length, data⟩⟩) ∧
    (∀ (q : AlchemyQueue) (poll : Bool) (m : Nat) (rest : List Nat) (s : Slot),
      q.mq = m :: rest →
      q.slots.get? m = some s →
      rt_queue_receive_timed true poll (some q) =
        .ret (Int.ofNat s.msg.size)
          (some { q with
                  mq := rest,
                  mcount := q.mcount - 1,
                  slots := q.slots.set m
                    ⟨s.used, { s.msg with refcount := s.msg.refcount + 1 }⟩ })) ∧
    (∀ (q : AlchemyQueue) (b : Nat) (s : Slot),
      q.slots.get? b = some s →
      (s.msg.refcount = 0 → rt_queue_free q b = (-22, q)) ∧
      (s.msg.refcount = 1 →
        rt_queue_free q b =
          (0, { q with slots := q.slots.set b ⟨false, { s.msg with refcount := 0 }⟩ })) ∧
      (2 ≤ s.msg.refcount →
        rt_queue_free q b =
          (0, { q with slots := (q.slots.set b ⟨s.used, { s.msg with refcount := s.msg.refcount - 1 }⟩) }))) := by
  refine ⟨?_, ?_, ?_, ?_, ?_⟩
  · intro q sz j q' h
    simp only [rt_queue_alloc] at h
    cases ha : allocSlot q.slots with
    | none => rw [ha] at h; cases h
    | some i =>
      rw [ha] at h
      simp only [Prod.mk.injEq, Option.some.injEq] at h
      obtain ⟨hij, hq⟩ := h
      subst hij
      rw [← hq]
      exact List.get?_set_eq_of_lt _ (allocSlot_lt_length q.slots _ ha)
  · intro q b sz mode s granted remaining hcap hs hrc hw hgw
    have hne : granted ≠ [] := by
      have := @grantWaiters_fst_ne_nil q.waiters b mode.broadcast hw
      rw [hgw] at this
      exact this
    have hn : granted.length ≠ 0 := fun h => hne (List.length_eq_zero.mp h)
    simp only [rt_queue_send, if_neg hcap, hs, if_neg hrc, hgw, if_pos hn]
  · intro q data mode j granted remaining hw hcap halloc hgw
    have hn0 : ¬(q.waiters.length = 0) := fun h => hw (List.length_eq_zero.mp h)
    have h1 : ¬(q.waiters.length = 0 ∧ mode.broadcast = true) := fun h => hn0 h.1
    have heq : queue_write_enqueue q data mode =
        ⟨(granted.length : Int),
         { q with
           slots := q.slots.set j ⟨true, ⟨data.length, granted.length, data⟩⟩,
           waiters := remaining },
         granted⟩ := by
      simp only [queue_write_enqueue, if_neg h1, if_neg hcap, halloc,
                 if_neg hn0, hgw]
    refine ⟨heq, ?_⟩
    rw [heq]
    exact List.get?_set_eq_of_lt _ (allocSlot_lt_length q.slots _ halloc)
  · intro q poll m rest s hm hs
    simp only [rt_queue_receive_timed, hm, hs]
    simp
  · intro q b s hs
    refine ⟨?_, ?_, ?_⟩
    · intro h0
      simp only [rt_queue_free, hs, if_pos h0]
    · intro h1
      simp only [rt_queue_free, hs, h1]
      simp
    · intro h2
      have h0 : ¬(s.msg.refcount = 0) := by omega
      have h1 : ¬(s.msg.refcount = 1) := by omega
      simp only [rt_queue_free, hs, if_neg h0, if_neg h1]

/-- C4, witness: on a queue holding a two-reference pending message
(id 0), a free pool slot (id 1) and one blocked receiver — allocation
yields refcount 1 in slot 1; sending buffer 0 to the blocked receiver
returns 1 and leaves refcount 2 - 1 + 1 = 2; a write's enqueue branch
allocates slot 1 at refcount 0 and grants the one blocked receiver,
ending at refcount 1 = one per grant; a receive pops message 0 raising
its refcount to 3; freeing two-reference buffer 0 drops it to 1 without
releasing the slot; freeing the refcount-0 slot 1 is a double-free
rejected with -EINVAL. -/
theorem C4_witness :
    (rt_queue_alloc Qd 5).2.slots.get? 1 =
      some ⟨true, ⟨5, 1, List.replicate 5 0⟩⟩ ∧
    rt_queue_send Qd 0 2 ⟨false, false⟩ =
      ⟨1,
       { Qd with
         slots := Qd.slots.set 0 ⟨true, ⟨2, 2, [1, 2]⟩⟩,
         waiters := [] },
       [⟨false, 0, [], some 0⟩]⟩ ∧
    queue_write_enqueue Qd [4, 5] ⟨false, false⟩ =
      ⟨1,
       { Qd with
         slots := Qd.slots.set 1 ⟨true, ⟨2, 1, [4, 5]⟩⟩,
         waiters := [] },
       [⟨false, 0, [], some 1⟩]⟩ ∧
    (queue_write_enqueue Qd [4, 5] ⟨false, false⟩).q.slots.get? 1 =
      some ⟨true, ⟨2, 1, [4, 5]⟩⟩ ∧
    rt_queue_receive_timed true false (some Qd) =
      .ret 2 (some { Qd with
                     mq := [],
                     mcount := 0,
                     slots := Qd.slots.set 0 ⟨true, ⟨2, 3, [1, 2]⟩⟩ }) ∧
    rt_queue_free Qd 0 =
      (0, { Qd with slots := Qd.slots.set 0 ⟨true, ⟨2, 1, [1, 2]⟩⟩ }) ∧
    rt_queue_free Qd 1 = (-22, Qd) := by
  refine ⟨?_, ?_, ?_, ?_, ?_, ?_, ?_⟩
  · have h := C4_refcount_discipline.1 Qd 5 1 (rt_queue_alloc Qd 5).2 (by decide)
    exact h
  · exact C4_refcount_discipline.2.1 Qd 0 2 ⟨false, false⟩
      ⟨true, ⟨2, 2, [1, 2]⟩⟩ [⟨false, 0, [], some 0⟩] []
      (by decide) (by decide) (by decide) (by decide) (by decide)
  · exact (C4_refcount_discipline.2.2.1 Qd [4, 5] ⟨false, false⟩ 1
      [⟨false, 0, [], some 1⟩] []
      (by decide) (by decide) (by decide) (by decide)).1
  · exact (C4_refcount_discipline.2.2.1 Qd [4, 5] ⟨false, false⟩ 1
      [⟨false, 0, [], some 1⟩] []
      (by decide) (by decide) (by decide) (by decide)).2
  · exact C4_refcount_discipline.2.2.2.1 Qd false 0 [] ⟨true, ⟨2, 2, [1, 2]⟩⟩
      (by decide) (by decide)
  · exact (C4_refcount_discipline.2.2.2.2 Qd 0 ⟨true, ⟨2, 2, [1, 2]⟩⟩
      (by decide)).2.2 (by decide)
  · exact (C4_refcount_discipline.2.2.2.2 Qd 1 ⟨false, ⟨0, 0, []⟩⟩
      (by decide)).1 (by decide)

/-! ## Claim C7 -/

/-- C7: when exactly one local receiver is already blocked with a
caller-supplied destination buffer of non-zero capacity, a (non-empty)
`rt_queue_write` copies the written bytes directly into that
destination truncated to its capacity (bytes beyond the copy keep the
destination's prior contents, the transfer length is recorded in
`usersz` and never exceeds the capacity), grants exactly that receiver,
returns 1, and neither allocates a pool buffer nor enqueues anything —
the queue's pool and pending list are returned untouched, only the wait
queue becomes empty. -/
theorem C7_write_fastpath_direct_copy
    (q : AlchemyQueue) (w : Waiter) (data : List Nat) (mode : SendMode)
    (hw : q.waiters = [w]) (hl : w.islocal = true) (hu : w.usersz ≠ 0)
    (hd : data ≠ []) :
    rt_queue_write (some q) data mode =
      (1, some { q with waiters := [] },
       [{ w with usersz := min data.length w.usersz,
                 userbuf := data.take (min data.length w.usersz) ++
                            w.userbuf.drop (min data.length w.usersz) }]) ∧
    min data.length w.usersz ≤ w.usersz := by
  have hlen : ¬(data.length = 0) := fun h => hd (List.length_eq_zero.mp h)
  refine ⟨?_, Nat.min_le_right _ _⟩
  simp only [rt_queue_write, if_neg hlen, rt_queue_write_body, hw,
             if_pos (And.intro hl hu)]

/-- C7, witness: writing 5 bytes to a queue whose only blocked receiver
is local with a 3-byte destination copies the first 3 bytes directly,
wakes that receiver and returns 1, with the pool and pending list
untouched. -/
theorem C7_witness :
    rt_queue_write (some Qw) [1, 2, 3, 4, 5] ⟨false, false⟩ =
      (1, some { Qw with waiters := [] },
       [⟨true, 3, [1, 2, 3, 9], none⟩]) ∧
    Qw.slots = [⟨false, ⟨0, 0, []⟩⟩] := by
  have h := (C7_write_fastpath_direct_copy Qw ⟨true, 3, [9, 9, 9, 9], none⟩
    [1, 2, 3, 4, 5] ⟨false, false⟩ (by decide) (by decide) (by decide)
    (by decide)).1
  exact ⟨h, by decide⟩

/-! ## Claim C8 -/

/-- C8, counterexample. The claim says a Broadcast send with zero
blocked receivers releases the sender's reference to the buffer; in
the code the sender's reference is consumed and then immediately
restored ("we only fix up the reference count"), so the refcount is
unchanged: on a queue with no waiter and a refcount-1 buffer, the
broadcast send returns 0 and gives back the very same state — the
buffer still has refcount 1 and is still allocated, where a released
reference would have left refcount 0 and returned the slot to the
pool. -/
theorem C8_counterexample_broadcast_keeps_reference :
    rt_queue_send Qb 0 3 ⟨true, false⟩ = ⟨0, Qb, []⟩ ∧
    (Qb.slots.get? 0).map (fun s => s.msg.refcount) = some 1 ∧
    (Qb.slots.get? 0).map (fun s => s.used) = some true := by
  refine ⟨?_, by decide, by decide⟩
  decide

/-- C8, amended: a Broadcast send on a queue with zero blocked
receivers returns 0, inserts nothing into the pending-message list and
leaves the buffer's reference count unchanged — the sender retains its
reference, only the recorded message size is updated; in general, a
non-failing send returns exactly the count of receivers woken. -/
theorem C8_broadcast_no_waiter_noop
    (q : AlchemyQueue) (b sz : Nat) (mode : SendMode) (s : Slot)
    (hbc : mode.broadcast = true) (hw : q.waiters = [])
    (hcap : ¬(q.limit ≠ 0 ∧ q.limit ≤ q.mcount))
    (hs : q.slots.get? b = some s) (hrc : s.msg.refcount ≠ 0) :
    rt_queue_send q b sz mode =
      ⟨0, { q with slots := q.slots.set b ⟨s.used, ⟨sz, s.msg.refcount, s.msg.payload⟩⟩ }, []⟩ ∧
    (∀ (q' : AlchemyQueue) (b' sz' : Nat) (mode' : SendMode),
      0 ≤ (rt_queue_send q' b' sz' mode').ret →
      (rt_queue_send q' b' sz' mode').ret =
        ((rt_queue_send q' b' sz' mode').granted.length : Int)) := by
  constructor
  · have hgw : grantWaiters q.waiters b true = ([], []) := by
      rw [hw]
      simp [grantWaiters]
    have hfix : s.msg.refcount - 1 + 1 = s.msg.refcount := by omega
    have hs' : q.slots[b]? = some s := by
      rw [← List.get?_eq_getElem?]
      exact hs
    simp [rt_queue_send, if_neg hcap, hs', if_neg hrc, hbc, hgw, hfix]
  · intro q' b' sz' mode' hge
    rcases rt_queue_send_ret_cases q' b' sz' mode' with ⟨h12, _⟩ | h22 | ⟨hlen, _⟩
    · rw [h12] at hge; omega
    · rw [h22] at hge; omega
    · exact hlen

/-- C8, witness for the amended theorem: broadcasting a refcount-1
buffer of recorded size 3 on a waiter-less queue returns 0 and leaves
the queue state exactly unchanged (refcount still 1, nothing
enqueued). -/
theorem C8_witness :
    rt_queue_send Qb 0 3 ⟨true, false⟩ =
      ⟨0, { Qb with slots := Qb.slots.set 0 ⟨true, ⟨3, 1, [7, 8, 9]⟩⟩ }, []⟩ ∧
    { Qb with slots := Qb.slots.set 0 ⟨true, ⟨3, 1, [7, 8, 9]⟩⟩ } = Qb :=
  ⟨(C8_broadcast_no_waiter_noop Qb 0 3 ⟨true, false⟩ ⟨true, ⟨3, 1, [7, 8, 9]⟩⟩
      rfl rfl (by decide) (by decide) (by decide)).1,
   by decide⟩

/-! ## Claim C9 -/

/-- C9: a receive or read issued from a context that cannot suspend
(not a Xenomai thread) with a timeout other than TM_NONBLOCK is
rejected immediately with -EPERM: the queue reference — even an invalid
one — is returned untouched before any validation or queue access, the
destination buffer is untouched, and the caller is never suspended. -/
theorem C9_blocking_call_from_non_xenomai_rejected :
    ∀ (qref : Option AlchemyQueue) (dest : List Nat),
      rt_queue_receive_timed false false qref = .ret (-1) qref ∧
      rt_queue_read_timed false false qref dest = (.ret (-1) qref, dest) := by
  intro qref dest
  constructor
  · simp [rt_queue_receive_timed]
  · simp [rt_queue_read_timed]

/-! ## Claim C10 -/

/-- C10: `rt_queue_write` of size zero returns 0 immediately for every
queue reference — including an invalid one, since the shortcut precedes
handle validation — without allocating a buffer, enqueuing a message or
waking any receiver (the reference comes back untouched and nobody is
granted); by contrast `rt_queue_send` accepts size zero as a valid
empty message: with no waiter it consumes the sender's reference and
appends the zero-sized message to the pending list. -/
theorem C10_write_zero_size_immediate_return :
    (∀ (qref : Option AlchemyQueue) (mode : SendMode),
      rt_queue_write qref [] mode = (0, qref, [])) ∧
    (∀ (q : AlchemyQueue) (b : Nat) (mode : SendMode) (s : Slot),
      ¬(q.limit ≠ 0 ∧ q.limit ≤ q.mcount) →
      q.slots.get? b = some s →
      s.msg.refcount ≠ 0 →
      q.waiters = [] →
      mode.broadcast = false →
      mode.urgent = false →
      rt_queue_send q b 0 mode =
        ⟨0,
         { q with
           slots := q.slots.set b ⟨s.used, ⟨0, s.msg.refcount - 1, s.msg.payload⟩⟩,
           mcount := q.mcount + 1,
           mq := q.mq ++ [b] },
         []⟩) := by
  constructor
  · intro qref mode
    simp [rt_queue_write]
  · intro q b mode s hcap hs hrc hw hbc hu
    have hgw : grantWaiters q.waiters b false = ([], []) := by
      rw [hw]
      simp [grantWaiters]
    have hs' : q.slots[b]? = some s := by
      rw [← List.get?_eq_getElem?]
      exact hs
    simp [rt_queue_send, if_neg hcap, hs', if_neg hrc, hbc, hu, hgw]

/-- C10, witness: a zero-size write on an invalid handle returns 0
touching nothing, and a zero-size send on a valid waiter-less queue
enqueues an empty message. -/
theorem C10_witness :
    rt_queue_write none [] ⟨false, false⟩ = (0, none, []) ∧
    rt_queue_send Qb 0 0 ⟨false, false⟩ =
      ⟨0,
       { Qb with
         slots := Qb.slots.set 0 ⟨true, ⟨0, 0, [7, 8, 9]⟩⟩,
         mcount := 1,
         mq := [0] },
       []⟩ :=
  ⟨C10_write_zero_size_immediate_return.1 none ⟨false, false⟩,
   C10_write_zero_size_immediate_return.2 Qb 0 ⟨false, false⟩
     ⟨true, ⟨3, 1, [7, 8, 9]⟩⟩ (by decide) (by decide) (by decide)
     (by decide) rfl rfl⟩

end Xenomai
